import Mathlib

set_option maxHeartbeats 1000000

/-!
A verification development for the incident-io periodic-sync plugin.

The program's strings are modeled as lists of characters (`JStr`); ISO-8601
timestamp strings are modeled by their epoch-millisecond instants (`Int`),
which `new Date(...)` ordering is isomorphic to.  Fallible HTTP requests are
modeled by an environment (`ApiEnv`) recording the outcome of each logical
GET, and `Except` values propagate failures exactly where the source's
`try`/`catch` blocks do.
-/

/-- JS strings, modeled as lists of characters. -/
abbrev JStr := List Char

/-- JS `String.prototype.split('\n')`: cut a string at every newline.
`splitLines [] = [[]]` just as `"".split('\n') = [""]` in JS. -/
def splitLines : JStr → List JStr
  | [] => [[]]
  | c :: rest =>
    if c = '\n' then [] :: splitLines rest
    else
      match splitLines rest with
      | [] => [[c]]
      | l :: ls => (c :: l) :: ls

/-- JS `Array.prototype.join('\n')`: the lines separated by single
newlines. -/
def joinLines : List JStr → JStr
  | [] => []
  | [x] => x
  | x :: y :: rest => x ++ '\n' :: joinLines (y :: rest)

/-- The whitespace characters removed by JS `String.prototype.trim`
(ASCII subset; the plugin's documents are ASCII-newline structured). -/
def isJsWhitespace (c : Char) : Bool :=
  c == ' ' || c == '\t' || c == '\n' || c == '\r' || c == '\x0b' || c == '\x0c'

/-- JS `String.prototype.trim`: strip whitespace from both ends. -/
def jsTrim (s : JStr) : JStr :=
  ((s.dropWhile isJsWhitespace).reverse.dropWhile isJsWhitespace).reverse

/-- Emit a run of `n` consecutive newlines after the regex replace
`/\n{3,}/g → '\n\n'`: runs of three or more newlines become exactly two. -/
def emitNewlineRun (n : Nat) : JStr :=
  if 3 ≤ n then ['\n', '\n'] else List.replicate n '\n'

/-- Scan for `collapseNewlines`, carrying the length of the pending newline
run seen so far. -/
def collapseNewlinesAux : Nat → JStr → JStr
  | pending, [] => emitNewlineRun pending
  | pending, c :: rest =>
    if c = '\n' then collapseNewlinesAux (pending + 1) rest
    else emitNewlineRun pending ++ c :: collapseNewlinesAux 0 rest

/-- JS `s.replace(/\n{3,}/g, '\n\n')`: collapse every maximal run of three or
more newline characters to exactly two. -/
def collapseNewlines (s : JStr) : JStr :=
  collapseNewlinesAux 0 s

/-- One entry of the heading index supplied by the metadata cache:
heading text, level, and start line (`heading.position.start.line`). -/
structure HeadingInfo where
  heading : JStr
  level : Nat
  line : Nat
deriving DecidableEq, Repr

/-- The `for (const heading of headings) { if (line > sectionLineNum &&
level <= existingLevel) { endLineNum = line; break; } }` loop from
`updateDailyNote` / `removeSectionFromNote`: the line of the first heading in
index order strictly after `sectionLineNum` with level at most `lvl`, or the
default `dflt` (the number of lines) if none. -/
def findEndLine (headings : List HeadingInfo) (sectionLineNum lvl dflt : Nat) : Nat :=
  match headings with
  | [] => dflt
  | h :: rest =>
    if sectionLineNum < h.line && h.level ≤ lvl then h.line
    else findEndLine rest sectionLineNum lvl dflt

/-- `headings.find(heading => heading.heading.trim() === sectionHeaderText)`:
the first heading whose trimmed text equals the (already stripped) configured
section header text. -/
def findSectionHeading (headings : List HeadingInfo) (sectionHeaderText : JStr) :
    Option HeadingInfo :=
  headings.find? (fun h => jsTrim h.heading == sectionHeaderText)

/-- The text transform performed by `DailyNoteManager.updateDailyNote` once the
note's content, heading index, stripped section header text and freshly
rendered section content are in hand (daily-note.ts lines 263-287).
If the heading is found, lines `[sectionLineNum, endLineNum)` are replaced:
`beforeSection + (beforeSection ? '\n' : '') + sectionContent +
(afterSection ? '\n' : '') + afterSection`; otherwise the section content is
appended after two newlines. -/
def updateNoteContent (content : JStr) (headings : List HeadingInfo)
    (sectionHeaderText sectionContent : JStr) : JStr :=
  match findSectionHeading headings sectionHeaderText with
  | none => content ++ '\n' :: '\n' :: sectionContent
  | some existingHeading =>
    let lines := splitLines content
    let sectionLineNum := existingHeading.line
    let endLineNum := findEndLine headings sectionLineNum existingHeading.level lines.length
    let beforeSection := joinLines (lines.take sectionLineNum)
    let afterSection := joinLines (lines.drop endLineNum)
    beforeSection ++ (if beforeSection = [] then [] else ['\n']) ++ sectionContent
      ++ (if afterSection = [] then [] else ['\n']) ++ afterSection

/-- The text transform performed by `DailyNoteManager.removeSectionFromNote`
(daily-note.ts lines 297-333).  If the heading is found, the owned line range
is deleted and the remainder is `(beforeSection + afterSection)
.replace(/\n{3,}/g, '\n\n').trim()`; otherwise the content is unchanged. -/
def removeSectionFromNote (content : JStr) (headings : List HeadingInfo)
    (sectionHeaderText : JStr) : JStr :=
  match findSectionHeading headings sectionHeaderText with
  | none => content
  | some existingHeading =>
    let lines := splitLines content
    let sectionLineNum := existingHeading.line
    let endLineNum := findEndLine headings sectionLineNum existingHeading.level lines.length
    let beforeSection := joinLines (lines.take sectionLineNum)
    let afterSection := joinLines (lines.drop endLineNum)
    jsTrim (collapseNewlines (beforeSection ++ afterSection))

/-- Spec-side description of deleting a line range without a separating
newline: the last line of `a` and the first line of `b` merge into one line;
all other lines survive unchanged. -/
def mergeJunction : List JStr → List JStr → List JStr
  | [], b => b
  | [x], [] => [x]
  | [x], b0 :: bt => (x ++ b0) :: bt
  | x :: xs, b => x :: mergeJunction xs b

/-! ## Backoff policy (api.ts lines 33-67) -/

/-- `const MAX_RETRIES = 5`. -/
def MAX_RETRIES : Nat := 5

/-- `const INITIAL_BACKOFF_MS = 500`. -/
def INITIAL_BACKOFF_MS : Int := 500

/-- `const MAX_BACKOFF_MS = 30000`. -/
def MAX_BACKOFF_MS : Int := 30000

/-- JS `Char` lowercasing as used by `toLowerCase` on the plugin's ASCII
identifiers. -/
def jsToLower (s : String) : String :=
  ⟨s.data.map Char.toLower⟩

/-- The digit-prefix step of JS `parseInt(s, 10)`: the value of the longest
leading run of decimal digits, or none if there is no digit. -/
def jsParseDigits (cs : List Char) : Option Nat :=
  let ds := cs.takeWhile Char.isDigit
  if ds.isEmpty then none
  else some (ds.foldl (fun acc c => 10 * acc + (c.toNat - '0'.toNat)) 0)

/-- JS `parseInt(s, 10)`: skip leading whitespace, accept an optional sign,
then read the longest run of decimal digits; `none` models `NaN`. -/
def jsParseInt (s : String) : Option Int :=
  match s.data.dropWhile (fun c => isJsWhitespace c) with
  | '-' :: rest => (jsParseDigits rest).map (fun n => -(n : Int))
  | '+' :: rest => (jsParseDigits rest).map (fun n => (n : Int))
  | cs => (jsParseDigits cs).map (fun n => (n : Int))

/-- `IncidentIOAPI.calculateBackoff(attempt, retryAfterHeader)` with the
jitter step (`addJitter`, a random ±25% factor) abstracted into an injected
function, as the spec requires for testability.  `if (retryAfterHeader)`
treats the empty string and an absent header as falsy; `parseInt` then decides
between the server hint and the exponential schedule. -/
def calculateBackoff (attempt : Nat) (retryAfterHeader : Option String)
    (jitter : Int → Int) : Int :=
  let exponentialMs : Int := INITIAL_BACKOFF_MS * 2 ^ attempt
  let cappedMs : Int := min exponentialMs MAX_BACKOFF_MS
  match retryAfterHeader with
  | none => jitter cappedMs
  | some h =>
    if h = "" then jitter cappedMs
    else
      match jsParseInt h with
      | some retryAfterSeconds => jitter (retryAfterSeconds * 1000)
      | none => jitter cappedMs

/-! ## The request retry loop (api.ts lines 69-127) -/

/-- What one attempt of `request` observes: either an HTTP response (with its
status and optional `retry-after` header) or a network/transport error
(carrying its message). -/
inductive AttemptOutcome where
  | response (status : Nat) (retryAfter : Option String)
  | transportError (msg : String)
deriving DecidableEq, Repr

/-- How one logical `request` terminates: a 2xx body returned at the given
0-based attempt; an immediate non-retryable status failure at the given
attempt; or retry exhaustion carrying the last transport error if one
occurred (`throw lastError || new Error('Max retries exceeded ...')`). -/
inductive RequestResult where
  | success (attempt : Nat)
  | statusFailure (status : Nat) (attempt : Nat)
  | exhausted (lastTransportError : Option String)
deriving DecidableEq, Repr

/-- The body of `request`'s `for (let attempt = 0; attempt < MAX_RETRIES;
attempt++)` loop: 2xx returns, 429 and 5xx retry after a backoff, any other
status throws immediately (the thrown `API request failed` error is rethrown
by the catch clause), and a transport error records itself as `lastError` and
retries. -/
def runRequest (outcomes : Nat → AttemptOutcome) :
    Nat → Nat → Option String → RequestResult
  | 0, _, lastError => .exhausted lastError
  | fuel + 1, attempt, lastError =>
    match outcomes attempt with
    | .response status _ =>
      if 200 ≤ status ∧ status < 300 then .success attempt
      else if status = 429 then runRequest outcomes fuel (attempt + 1) lastError
      else if 500 ≤ status then runRequest outcomes fuel (attempt + 1) lastError
      else .statusFailure status attempt
    | .transportError msg => runRequest outcomes fuel (attempt + 1) (some msg)

/-- `IncidentIOAPI.request`, as a function of the outcome each attempt would
observe. -/
def request (outcomes : Nat → AttemptOutcome) : RequestResult :=
  runRequest outcomes MAX_RETRIES 0 none

/-- Whether an attempt outcome sends `request` back around the loop:
429, any 5xx-or-above status, or a transport error. -/
def retryableOutcome : AttemptOutcome → Bool
  | .response status _ => status == 429 || 500 ≤ status
  | .transportError _ => true

/-- The number of attempts a finished request consumed (exhaustion always
consumes all `MAX_RETRIES`). -/
def attemptsUsed : RequestResult → Nat
  | .success attempt => attempt + 1
  | .statusFailure _ attempt => attempt + 1
  | .exhausted _ => MAX_RETRIES

/-- The last transport-error message among attempts `[start, start + fuel)`,
accumulated in loop order on top of `acc` — the shape of `lastError` when the
loop runs through those attempts. -/
def lastTransportFrom (outcomes : Nat → AttemptOutcome) :
    Nat → Nat → Option String → Option String
  | 0, _, acc => acc
  | fuel + 1, start, acc =>
    lastTransportFrom outcomes fuel (start + 1)
      (match outcomes start with
       | .transportError msg => some msg
       | _ => acc)

/-! ## API data model (types.ts) -/

/-- JS `a || b` on strings: the empty string is falsy. -/
def jsOrStr (s dflt : String) : String :=
  if s = "" then dflt else s

/-- JS truthiness of an optional string: absent and empty are falsy. -/
def jsTruthyStr : Option String → Bool
  | none => false
  | some s => !(s == "")

/-- `Math.round((closedMs - createdMs) / (1000 * 60))`.
JS `Math.round x = ⌊x + 1/2⌋` (half rounds toward +∞), so the minute count is
`⌊(2·diff + 60000) / 120000⌋` with flooring division. -/
def jsRoundDivMinutes (diffMs : Int) : Int :=
  Int.fdiv (2 * diffMs + 60000) 120000

/-- A user row from `/users` (`IncidentIOUser`). -/
structure IOUser where
  id : String
  name : String
  email : String
deriving DecidableEq, Repr

/-- One `incident_role_assignments` entry. -/
structure RoleAssignment where
  assigneeId : String
  assigneeName : String
  assigneeEmail : String
  roleName : String
  roleType : String
deriving DecidableEq, Repr

/-- One `custom_field_entries` entry, with its resolved value variants. -/
structure CustomFieldEntry where
  fieldName : String
  valueText : Option String
  valueSingleSelect : Option String
  valueMultiSelect : Option (List String)
deriving DecidableEq, Repr

/-- A raw incident from `/incidents` (the `Incident` interface); timestamp
strings are modeled by their epoch-millisecond instants. -/
structure RawIncident where
  id : String
  reference : String
  name : String
  summary : Option String
  created_at : Int
  updated_at : Option Int
  closed_at : Option Int
  statusName : String
  statusCategory : String
  severityName : String
  incidentType : Option String
  roleAssignments : List RoleAssignment
  customFields : List CustomFieldEntry
deriving DecidableEq, Repr

/-- A timeline row from `/incident_updates` (the `IncidentUpdate` interface);
`newStatusCategory` is `new_incident_status?.category`. -/
structure UpdateRec where
  id : String
  created_at : Int
  message : Option String
  newStatusCategory : Option String
deriving DecidableEq, Repr

/-- A `/follow_ups` row (only the fields the client reads). -/
structure FollowUpRec where
  title : String
  status : String
deriving DecidableEq, Repr

/-- An `/actions` row (only the fields the client reads). -/
structure ActionRec where
  description : Option String
  status : String
deriving DecidableEq, Repr

/-- A `/incident_attachments` row (only the fields the client reads). -/
structure AttachmentRec where
  title : Option String
  permalink : String
deriving DecidableEq, Repr

/-- A `/incident_timestamp_values` row: named instant, possibly unset. -/
structure TimestampValueRec where
  name : String
  value : Option Int
deriving DecidableEq, Repr

/-- A `/schedules` row. -/
structure ScheduleRec where
  id : String
  name : String
deriving DecidableEq, Repr

/-- A `/schedule_entries` final entry (only the matched field). -/
structure ScheduleEntryRec where
  userEmail : String
deriving DecidableEq, Repr

/-- One role of the normalized record. -/
structure RoleM where
  role : String
  roleType : String
  assignee : String
  isUser : Bool
deriving DecidableEq, Repr

/-- The normalized `FullIncident` record. -/
structure FullIncidentM where
  id : String
  reference : String
  name : String
  summary : Option String
  created_at : Int
  updated_at : Option Int
  closed_at : Option Int
  status : String
  statusCategory : String
  severity : String
  incidentType : Option String
  url : String
  durationMinutes : Option Int
  roles : List RoleM
  customFields : List (String × String)
  timestamps : List (String × Int)
  updates : List UpdateRec
  actions : List ActionRec
  followUps : List FollowUpRec
  attachments : List AttachmentRec
deriving DecidableEq, Repr

/-- `OnCallResult`: names of schedules the user is currently covering. -/
structure OnCallResultM where
  schedules : List String
deriving DecidableEq, Repr

/-- One lightweight `IncidentResult` of the sync summary. -/
structure IncidentResultM where
  reference : String
  name : String
  status : String
deriving DecidableEq, Repr

/-- `SyncResult`: on-call info (none means "no schedules"), lightweight
results, and the list of fully aggregated incidents. -/
structure SyncResultM where
  onCall : Option OnCallResultM
  incidents : List IncidentResultM
  fullIncidents : List FullIncidentM
deriving DecidableEq, Repr

/-! ## The API environment

Each logical GET the client can issue is modeled by its outcome: `.ok` with
the decoded rows, or `.error ()` when every retry failed or a 4xx occurred.
Pagination of `/incidents` and the server-side query filters are absorbed
into a single `incidentsResp` list (the client concatenates the pages
verbatim). -/

structure ApiEnv where
  usersResp : Except Unit (List IOUser)
  schedulesResp : Except Unit (List ScheduleRec)
  entriesResp : String → Except Unit (List ScheduleEntryRec)
  incidentsResp : Except Unit (List RawIncident)
  updatesResp : String → Except Unit (List UpdateRec)
  followUpsResp : String → Except Unit (List FollowUpRec)
  actionsResp : String → Except Unit (List ActionRec)
  attachmentsResp : String → Except Unit (List AttachmentRec)
  timestampsResp : String → Except Unit (List TimestampValueRec)

/-- The `catch { ... return []; }` pattern shared by every per-incident
sub-resource fetch: any failure degrades to an empty list. -/
def catchEmpty {α : Type} : Except Unit (List α) → List α
  | .ok xs => xs
  | .error _ => []

/-- Whether `needle` occurs at the start of `hay`. -/
def startsWithChars : List Char → List Char → Bool
  | [], _ => true
  | _ :: _, [] => false
  | a :: as, b :: bs => a == b && startsWithChars as bs

/-- JS `hay.includes(needle)`: whether `needle` occurs contiguously anywhere
in `hay`. -/
def strIncludes (hay needle : List Char) : Bool :=
  match hay with
  | [] => startsWithChars needle []
  | _ :: rest => startsWithChars needle hay || strIncludes rest needle

/-- Whether a user matches the identifier: `u.email.toLowerCase()
.includes(id) || u.name.toLowerCase().includes(id)` with the identifier
lowercased once (`IncidentIOAPI.findUser`). -/
def matchesUser (u : IOUser) (identifier : String) : Bool :=
  let lowerIdentifier := (jsToLower identifier).data
  strIncludes (jsToLower u.email).data lowerIdentifier
    || strIncludes (jsToLower u.name).data lowerIdentifier

/-- `IncidentIOAPI.findUser`: the first matching user, or none.  Fails when
the `/users` request itself fails. -/
def findUser (env : ApiEnv) (identifier : String) : Except Unit (Option IOUser) :=
  match env.usersResp with
  | .error e => .error e
  | .ok users => .ok (users.find? (fun u => matchesUser u identifier))

/-- The custom-field value resolution of `buildBasicFullIncident`:
`value_text`, else `value_single_select?.value`, else the joined
`value_multi_select`, else the empty string. -/
def resolveCustomFieldValue (entry : CustomFieldEntry) : String :=
  if jsTruthyStr entry.valueText then entry.valueText.getD ""
  else if jsTruthyStr entry.valueSingleSelect then entry.valueSingleSelect.getD ""
  else
    match entry.valueMultiSelect with
    | some vs => if vs.length ≠ 0 then String.intercalate ", " vs else ""
    | none => ""

/-- `IncidentIOAPI.buildBasicFullIncident` (api.ts lines 259-320): the pure
normalization of a raw incident, before sub-resources are attached.
`durationMinutes` is computed exactly when `closed_at` is present
(`created_at` is a required, non-empty timestamp). -/
def buildBasicFullIncident (incident : RawIncident) (userId : String) :
    FullIncidentM :=
  let roles := incident.roleAssignments.map (fun a =>
    { role := jsOrStr a.roleName "Unknown"
      roleType := jsOrStr a.roleType "custom"
      assignee := jsOrStr a.assigneeName "Unknown"
      isUser := a.assigneeId == userId : RoleM })
  let statusCategory := jsOrStr incident.statusCategory "closed"
  let customFields :=
    (((incident.customFields.filter (fun e => e.fieldName ≠ "")).map
      (fun e => (e.fieldName, resolveCustomFieldValue e))).filter
      (fun f => f.2 ≠ ""))
  let durationMinutes : Option Int :=
    match incident.closed_at with
    | some closed => some (jsRoundDivMinutes (closed - incident.created_at))
    | none => none
  { id := incident.id
    reference := incident.reference
    name := jsOrStr incident.name "Untitled Incident"
    summary := incident.summary
    created_at := incident.created_at
    updated_at := incident.updated_at
    closed_at := incident.closed_at
    status := jsOrStr incident.statusName "Unknown"
    statusCategory := statusCategory
    severity := jsOrStr incident.severityName "Unknown"
    incidentType := incident.incidentType
    url := "https://app.incident.io/incidents/" ++ incident.reference
    durationMinutes := durationMinutes
    roles := roles
    customFields := customFields
    timestamps := []
    updates := []
    actions := []
    followUps := []
    attachments := [] }

/-- `getIncidentUpdates`: any failure (including 404) resolves to `[]`. -/
def getIncidentUpdates (env : ApiEnv) (incidentId : String) : List UpdateRec :=
  catchEmpty (env.updatesResp incidentId)

/-- `getIncidentFollowUps`: failures resolve to `[]`; deleted rows dropped. -/
def getIncidentFollowUps (env : ApiEnv) (incidentId : String) : List FollowUpRec :=
  (catchEmpty (env.followUpsResp incidentId)).filter (fun fu => fu.status ≠ "deleted")

/-- `getIncidentActions`: failures resolve to `[]`; deleted rows dropped. -/
def getIncidentActions (env : ApiEnv) (incidentId : String) : List ActionRec :=
  (catchEmpty (env.actionsResp incidentId)).filter (fun a => a.status ≠ "deleted")

/-- `getIncidentAttachments`: failures resolve to `[]`. -/
def getIncidentAttachments (env : ApiEnv) (incidentId : String) : List AttachmentRec :=
  catchEmpty (env.attachmentsResp incidentId)

/-- `getIncidentTimestamps`: failures resolve to `[]`; unset values dropped;
the rest sorted ascending by instant (JS `sort` on `getTime()` differences). -/
def getIncidentTimestamps (env : ApiEnv) (incidentId : String) : List (String × Int) :=
  let mapped := ((catchEmpty (env.timestampsResp incidentId)).filter
    (fun tv => tv.value.isSome)).filterMap
    (fun tv => tv.value.map (fun v => (tv.name, v)))
  mapped.mergeSort (fun a b => a.2 ≤ b.2)

/-- `IncidentIOAPI.getFullIncidentDetails` (api.ts lines 415-456): attach the
five independently fetched sub-resources, then, if the incident carries no
`closed_at` but its status category is `closed`, adopt the timestamp of the
first update whose new status category is `closed` and recompute the
duration.  Sub-resource failures never fail the incident, so this is total. -/
def getFullIncidentDetails (env : ApiEnv) (incident : RawIncident)
    (userId : String) : FullIncidentM :=
  let base := buildBasicFullIncident incident userId
  let updates := getIncidentUpdates env incident.id
  let fullIncident :=
    { base with
      updates := updates
      followUps := getIncidentFollowUps env incident.id
      actions := getIncidentActions env incident.id
      attachments := getIncidentAttachments env incident.id
      timestamps := getIncidentTimestamps env incident.id }
  if fullIncident.closed_at = none ∧ fullIncident.statusCategory = "closed" then
    match updates.find? (fun u => u.newStatusCategory == some "closed") with
    | some closedUpdate =>
      { fullIncident with
        closed_at := some closedUpdate.created_at
        durationMinutes :=
          some (jsRoundDivMinutes (closedUpdate.created_at - fullIncident.created_at)) }
    | none => fullIncident
  else fullIncident

/-- `IncidentIOAPI.getOnCallSchedules` (api.ts lines 469-495): fails only if
the `/schedules` list request fails; each per-schedule entries fetch that
fails is caught and treated as "not on call for that schedule". -/
def getOnCallSchedules (env : ApiEnv) (userEmail : String) :
    Except Unit OnCallResultM :=
  match env.schedulesResp with
  | .error e => .error e
  | .ok schedules =>
    .ok ⟨schedules.filterMap (fun schedule =>
      match env.entriesResp schedule.id with
      | .error _ => none
      | .ok finalEntries =>
        if finalEntries.any (fun entry =>
            jsToLower entry.userEmail == jsToLower userEmail)
        then some schedule.name else none)⟩

/-- `getActiveIncidents`: the `/incidents` list filtered to the live and
triage status categories. -/
def getActiveIncidents (env : ApiEnv) : Except Unit (List RawIncident) :=
  match env.incidentsResp with
  | .error e => .error e
  | .ok incidents =>
    .ok (incidents.filter (fun inc =>
      inc.statusCategory == "live" || inc.statusCategory == "triage"))

/-- `getUserIncidents`: active incidents where the user holds the lead role. -/
def getUserIncidents (env : ApiEnv) (userId : String) :
    Except Unit (List RawIncident) :=
  match getActiveIncidents env with
  | .error e => .error e
  | .ok incidents =>
    .ok (incidents.filter (fun inc =>
      inc.roleAssignments.any (fun role =>
        role.assigneeId == userId && role.roleType == "lead")))

/-- `getUserIncidentsWithHistory`: the (server-side date-filtered, paginated)
`/incidents` list filtered to incidents where the user holds any role. -/
def getUserIncidentsWithHistory (env : ApiEnv) (userId : String) :
    Except Unit (List RawIncident) :=
  match env.incidentsResp with
  | .error e => .error e
  | .ok incidents =>
    .ok (incidents.filter (fun inc =>
      inc.roleAssignments.any (fun role => role.assigneeId == userId)))

/-- `IncidentIOAPI.processInBatches` (api.ts lines 499-532): process items in
slices of `batchSize`; within a batch, `Promise.allSettled` keeps fulfilled
results in item order and drops rejected ones, so a failed item never affects
the rest.  A failing processor run is modeled as `none`.  The source's loop
does not terminate for `batchSize = 0` (its only caller passes 5); `max
batchSize 1` makes the model total without changing any positive batch size. -/
def processInBatches {α β : Type} (batchSize : Nat) (processor : α → Option β) :
    List α → List β
  | [] => []
  | item :: rest =>
    ((item :: rest).take batchSize).filterMap processor
      ++ processInBatches batchSize processor ((item :: rest).drop (max batchSize 1))
termination_by items => items.length
decreasing_by
  simp only [List.length_drop]
  have h1 : 1 ≤ max batchSize 1 := le_max_right _ _
  simp only [List.length_cons]
  omega

/-- How `syncData` can fail: a failed prerequisite request, or no user
matching the identifier (`throw new Error('Could not find user ...')`). -/
inductive SyncError where
  | requestFailed
  | userNotFound
deriving DecidableEq, Repr

/-- `IncidentIOAPI.syncData` (api.ts lines 534-578): resolve the user, fetch
on-call status and the candidate incidents, then aggregate full details in
batches of 5 (each item is processed by the total `getFullIncidentDetails`,
wrapped as an always-fulfilled settled promise). -/
def syncData (env : ApiEnv) (userIdentifier : String) (historical : Bool) :
    Except SyncError SyncResultM :=
  match findUser env userIdentifier with
  | .error _ => .error .requestFailed
  | .ok none => .error .userNotFound
  | .ok (some user) =>
    match getOnCallSchedules env user.email,
        (if historical then getUserIncidentsWithHistory env user.id
         else getUserIncidents env user.id) with
    | .ok onCall, .ok incidents =>
      let incidentResults := incidents.map (fun incident =>
        { reference := incident.reference
          name := incident.name
          status := incident.statusName : IncidentResultM })
      let fullIncidents := processInBatches 5
        (fun incident => some (getFullIncidentDetails env incident user.id))
        incidents
      .ok
        { onCall := if 0 < onCall.schedules.length then some onCall else none
          incidents := incidentResults
          fullIncidents := fullIncidents }
    | .error _, _ => .error .requestFailed
    | _, .error _ => .error .requestFailed

/-! ## Date-window filter (daily-note.ts lines 165-183) -/

/-- `DailyNoteManager.filterIncidentsForDate`: the target calendar day is
modeled by its local start instant `dayStart` (`setHours(0,0,0,0)`); its end
instant is `dayStart + 86399999` (`setHours(23,59,59,999)`).  An incident is
kept iff it was created at or before the end of the day and is either still
open or was closed at or after the start of the day. -/
def filterIncidentsForDate (incidents : List FullIncidentM) (dayStart : Int) :
    List FullIncidentM :=
  let dateEnd := dayStart + 86399999
  incidents.filter (fun inc =>
    decide (inc.created_at ≤ dateEnd) &&
      (match inc.closed_at with
       | none => true
       | some closedAt => decide (dayStart ≤ closedAt)))

/-! ## Concrete records and environments used by witnesses -/

/-- A minimal incident record with the given lifecycle instants, used by
concrete witnesses. -/
def mkIncidentM (created : Int) (closed : Option Int) : FullIncidentM :=
  { id := "i1"
    reference := "INC-1"
    name := "An incident"
    summary := none
    created_at := created
    updated_at := none
    closed_at := closed
    status := "Closed"
    statusCategory := "closed"
    severity := "Minor"
    incidentType := none
    url := "https://app.incident.io/incidents/INC-1"
    durationMinutes := none
    roles := []
    customFields := []
    timestamps := []
    updates := []
    actions := []
    followUps := []
    attachments := [] }

/-- A closed-status raw incident lacking `closed_at`, used by witnesses. -/
def rawClosedIncident : RawIncident :=
  { id := "i1"
    reference := "INC-1"
    name := "Incident"
    summary := none
    created_at := 0
    updated_at := none
    closed_at := none
    statusName := "Closed"
    statusCategory := "closed"
    severityName := "Minor"
    incidentType := none
    roleAssignments := []
    customFields := [] }

/-- An environment whose update timeline closes the incident at instant
120000, used by witnesses. -/
def envBackfill : ApiEnv :=
  { usersResp := .ok []
    schedulesResp := .ok []
    entriesResp := fun _ => .ok []
    incidentsResp := .ok []
    updatesResp := fun _ => .ok [⟨"up1", 120000, none, some "closed"⟩]
    followUpsResp := fun _ => .ok []
    actionsResp := fun _ => .ok []
    attachmentsResp := fun _ => .ok []
    timestampsResp := fun _ => .ok [] }

/-- Whether an `Except` computation succeeded. -/
def exceptIsOk {ε α : Type} : Except ε α → Bool
  | .ok _ => true
  | .error _ => false

/-- A user whose email matches the identifier "james". -/
def matchedUser : IOUser :=
  ⟨"u1", "James Jarvis", "james@example.com"⟩

/-- An environment where the /users request succeeds with a matching user but
the /schedules list request fails. -/
def envSchedulesFail : ApiEnv :=
  { usersResp := .ok [matchedUser]
    schedulesResp := .error ()
    entriesResp := fun _ => .ok []
    incidentsResp := .ok []
    updatesResp := fun _ => .ok []
    followUpsResp := fun _ => .ok []
    actionsResp := fun _ => .ok []
    attachmentsResp := fun _ => .ok []
    timestampsResp := fun _ => .ok [] }

/-- An environment where every request succeeds. -/
def envAllOk : ApiEnv :=
  { usersResp := .ok [matchedUser]
    schedulesResp := .ok [⟨"s1", "Primary"⟩]
    entriesResp := fun _ => .error ()
    incidentsResp := .ok []
    updatesResp := fun _ => .ok []
    followUpsResp := fun _ => .ok []
    actionsResp := fun _ => .ok []
    attachmentsResp := fun _ => .ok []
    timestampsResp := fun _ => .ok [] }

/-! ## Helper lemmas about the line model -/

/-- Unfolding `splitLines` at a leading newline. -/
theorem splitLines_cons_newline (rest : JStr) :
    splitLines ('\n' :: rest) = [] :: splitLines rest := by
  simp [splitLines]

/-- Unfolding `splitLines` at a leading non-newline character. -/
theorem splitLines_cons_of_ne {c : Char} (hc : ¬ c = '\n') (rest l : JStr)
    (ls : List JStr) (h : splitLines rest = l :: ls) :
    splitLines (c :: rest) = (c :: l) :: ls := by
  simp only [splitLines, if_neg hc, h]

/-- Splitting never yields the empty list (JS `split` always returns at least
one element). -/
theorem splitLines_ne_nil : ∀ cs : JStr, splitLines cs ≠ []
  | [] => by simp [splitLines]
  | c :: rest => by
    by_cases h : c = '\n'
    · simp [splitLines, h]
    · simp only [splitLines, if_neg h]
      rcases hr : splitLines rest with _ | ⟨l, ls⟩ <;> simp

/-- No line produced by `splitLines` contains a newline. -/
theorem no_newline_of_mem_splitLines :
    ∀ (cs : JStr), ∀ l ∈ splitLines cs, '\n' ∉ l := by
  intro cs
  induction cs with
  | nil =>
    intro l hl
    simp [splitLines] at hl
    simp [hl]
  | cons c rest ih =>
    intro l hl
    by_cases hc : c = '\n'
    · subst hc
      rw [splitLines_cons_newline] at hl
      rcases List.mem_cons.mp hl with rfl | hl
      · simp
      · exact ih l hl
    · rcases hr : splitLines rest with _ | ⟨l0, ls⟩
      · exact absurd hr (splitLines_ne_nil rest)
      · rw [splitLines_cons_of_ne hc rest l0 ls hr] at hl
        rcases List.mem_cons.mp hl with rfl | hl
        · intro hmem
          rcases List.mem_cons.mp hmem with hceq | hmem
          · exact hc hceq.symm
          · exact ih l0 (by rw [hr]; exact List.mem_cons_self l0 ls) hmem
        · exact ih l (by rw [hr]; exact List.mem_cons_of_mem l0 hl)

/-- A newline-free string splits into the single line it is. -/
theorem splitLines_of_no_newline : ∀ a : JStr, '\n' ∉ a → splitLines a = [a] := by
  intro a
  induction a with
  | nil => intro _; rfl
  | cons c a ih =>
    intro h
    have hc : ¬ c = '\n' := fun hcc => h (hcc ▸ List.mem_cons_self c a)
    have ha : '\n' ∉ a := fun hm => h (List.mem_cons_of_mem c hm)
    exact splitLines_cons_of_ne hc a a [] (ih ha)

/-- Splitting a newline-free string followed by a newline and a remainder
peels off the first line. -/
theorem splitLines_append_newline :
    ∀ (a : JStr), '\n' ∉ a → ∀ rest : JStr,
      splitLines (a ++ '\n' :: rest) = a :: splitLines rest := by
  intro a
  induction a with
  | nil => intro _ rest; exact splitLines_cons_newline rest
  | cons c a ih =>
    intro h rest
    have hc : ¬ c = '\n' := fun hcc => h (hcc ▸ List.mem_cons_self c a)
    have ha : '\n' ∉ a := fun hm => h (List.mem_cons_of_mem c hm)
    rw [List.cons_append]
    exact splitLines_cons_of_ne hc _ a (splitLines rest) (ih ha rest)

/-- `joinLines` of a non-empty list of lines unfolds head-first. -/
theorem joinLines_cons (x : JStr) (ys : List JStr) (h : ys ≠ []) :
    joinLines (x :: ys) = x ++ '\n' :: joinLines ys := by
  cases ys with
  | nil => exact absurd rfl h
  | cons y t => rfl

/-- `splitLines` inverts `joinLines` on non-empty lists of newline-free
lines. -/
theorem splitLines_joinLines :
    ∀ D : List JStr, D ≠ [] → (∀ l ∈ D, '\n' ∉ l) →
      splitLines (joinLines D) = D
  | [], hne, _ => absurd rfl hne
  | [a], _, h => by
    have hj : joinLines [a] = a := rfl
    rw [hj, splitLines_of_no_newline a (h a (by simp))]
  | a :: b :: D, _, h => by
    rw [joinLines_cons a (b :: D) (by simp),
      splitLines_append_newline a (h a (by simp)),
      splitLines_joinLines (b :: D) (by simp)
        (fun l hl => h l (List.mem_cons_of_mem a hl))]

/-- Splitting `joinLines D ++ '\n' :: x` yields the lines `D` followed by the
lines of `x`, for `D` non-empty and newline-free. -/
theorem splitLines_join_prepend :
    ∀ D : List JStr, D ≠ [] → (∀ l ∈ D, '\n' ∉ l) → ∀ x : JStr,
      splitLines (joinLines D ++ '\n' :: x) = D ++ splitLines x
  | [], hne, _, _ => absurd rfl hne
  | [a], _, h, x => by
    have hj : joinLines [a] = a := rfl
    rw [hj, splitLines_append_newline a (h a (by simp)) x]
    rfl
  | a :: b :: D, _, h, x => by
    rw [joinLines_cons a (b :: D) (by simp), List.append_assoc, List.cons_append,
      splitLines_append_newline a (h a (by simp)),
      splitLines_join_prepend (b :: D) (by simp)
        (fun l hl => h l (List.mem_cons_of_mem a hl)) x]
    rfl

/-- Splitting `x ++ '\n' :: joinLines D` yields the lines of `x` followed by
`D`, for `D` non-empty and newline-free. -/
theorem splitLines_append_join :
    ∀ (x : JStr) (D : List JStr), D ≠ [] → (∀ l ∈ D, '\n' ∉ l) →
      splitLines (x ++ '\n' :: joinLines D) = splitLines x ++ D := by
  intro x
  induction x with
  | nil =>
    intro D hne h
    rw [List.nil_append, splitLines_cons_newline, splitLines_joinLines D hne h]
    rfl
  | cons c x ih =>
    intro D hne h
    by_cases hc : c = '\n'
    · subst hc
      rw [List.cons_append, splitLines_cons_newline, splitLines_cons_newline,
        ih D hne h]
      rfl
    · rcases hx : splitLines x with _ | ⟨l0, ls⟩
      · exact absurd hx (splitLines_ne_nil x)
      · rw [List.cons_append,
          splitLines_cons_of_ne hc _ l0 (ls ++ D) (by rw [ih D hne h, hx]; rfl),
          splitLines_cons_of_ne hc x l0 ls hx]
        rfl

/-- `mergeJunction` of a non-empty left part is non-empty. -/
theorem mergeJunction_ne_nil : ∀ (a b : List JStr), a ≠ [] → mergeJunction a b ≠ []
  | [], _, hne => absurd rfl hne
  | [x], [], _ => by simp [mergeJunction]
  | [x], b0 :: bt, _ => by simp [mergeJunction]
  | x :: y :: xs, b, _ => by simp [mergeJunction]

/-- Joining across the deletion point without a separator is exactly joining
the merged line list: the junction lines fuse, everything else survives. -/
theorem joinLines_mergeJunction :
    ∀ a b : List JStr, joinLines (mergeJunction a b) = joinLines a ++ joinLines b
  | [], b => by simp [mergeJunction, joinLines]
  | [x], [] => by simp [mergeJunction, joinLines]
  | [x], b0 :: bt => by
    cases bt with
    | nil => simp [mergeJunction, joinLines]
    | cons b1 bt =>
      show joinLines ((x ++ b0) :: b1 :: bt) = joinLines [x] ++ joinLines (b0 :: b1 :: bt)
      rw [joinLines_cons (x ++ b0) (b1 :: bt) (by simp),
        joinLines_cons b0 (b1 :: bt) (by simp)]
      show x ++ b0 ++ '\n' :: joinLines (b1 :: bt) = x ++ (b0 ++ '\n' :: joinLines (b1 :: bt))
      rw [List.append_assoc]
  | x :: y :: xs, b => by
    have hne : mergeJunction (y :: xs) b ≠ [] :=
      mergeJunction_ne_nil (y :: xs) b (by simp)
    show joinLines (x :: mergeJunction (y :: xs) b) = _
    rw [joinLines_cons x _ hne, joinLines_mergeJunction (y :: xs) b,
      joinLines_cons x (y :: xs) (by simp), List.append_assoc, List.cons_append]

/-- The `endLineNum` loop finds the line of the first heading in index order
strictly after the section heading's line with level at most the section
heading's level, defaulting to the line count. -/
theorem findEndLine_eq_find? (headings : List HeadingInfo) (k lvl dflt : Nat) :
    findEndLine headings k lvl dflt =
      ((headings.find? (fun h => decide (k < h.line) && decide (h.level ≤ lvl))).map
        (fun h => h.line)).getD dflt := by
  induction headings with
  | nil => rfl
  | cons h rest ih =>
    by_cases hc : (decide (k < h.line) && decide (h.level ≤ lvl)) = true
    · simp [findEndLine, List.find?, hc]
    · simp [findEndLine, List.find?, hc, ih]

/-! ## C1: section replace preserves the frame -/

/-- C1 counterexample: in a document whose only line before the target heading
is blank, `beforeSection` joins to the empty string, the splice suppresses the
separator, and the blank prefix line is dropped — the lines before the target
heading's line are not preserved.  Here the document is `"\n# A\nold"`, the
target heading `A` is at line 1, and the replace returns just `"new"`. -/
theorem updateNote_frame_counterexample :
    splitLines (updateNoteContent ("\n# A\nold".data) [⟨"A".data, 1, 1⟩]
        ("A".data) ("new".data))
      ≠ (splitLines ("\n# A\nold".data)).take 1 ++ splitLines ("new".data)
          ++ (splitLines ("\n# A\nold".data)).drop 3 := by
  decide

/-- Joining no lines yields the empty string. -/
theorem joinLines_nil : joinLines [] = [] := rfl

/-- Unfolding of the found-heading branch of `updateDailyNote`'s splice, with
the joined prefix and suffix abstracted. -/
theorem updateNoteContent_found (content : JStr) (headings : List HeadingInfo)
    (sectionHeaderText sectionContent : JStr) (tgt : HeadingInfo) (B A : JStr)
    (hfind : findSectionHeading headings sectionHeaderText = some tgt)
    (hB : B = joinLines ((splitLines content).take tgt.line))
    (hA : A = joinLines ((splitLines content).drop
      (findEndLine headings tgt.line tgt.level (splitLines content).length))) :
    updateNoteContent content headings sectionHeaderText sectionContent
      = B ++ (if B = [] then [] else ['\n']) ++ sectionContent
        ++ (if A = [] then [] else ['\n']) ++ A := by
  subst hB hA
  simp only [updateNoteContent, hfind]

/-- C1 (amended): when the document text before the target heading's line does
not join to the empty string (or there are no lines before it), and likewise
for the text from the next heading of level ≤ the target's level onward, the
found-heading branch of `updateDailyNote` is an exact frame-preserving splice:
the resulting lines are the original lines before the heading, then the new
body's lines, then the original lines from the computed end of the owned range
onward — and that end is the line of the first heading after the target with
level at most the target's, or the document's line count if none exists.  (The
counterexample shows the prefix lines are lost when they join to the empty
string, so that proviso is necessary.) -/
theorem updateNote_replace_frame
    (content : JStr) (headings : List HeadingInfo)
    (sectionHeaderText sectionContent : JStr) (tgt : HeadingInfo)
    (L : List JStr) (k e : Nat)
    (hfind : findSectionHeading headings sectionHeaderText = some tgt)
    (hL : L = splitLines content)
    (hk : k = tgt.line)
    (he : e = findEndLine headings k tgt.level L.length)
    (hb : L.take k = [] ∨ joinLines (L.take k) ≠ [])
    (ha : L.drop e = [] ∨ joinLines (L.drop e) ≠ []) :
    splitLines (updateNoteContent content headings sectionHeaderText sectionContent)
        = L.take k ++ splitLines sectionContent ++ L.drop e ∧
      e = ((headings.find? (fun h =>
        decide (k < h.line) && decide (h.level ≤ tgt.level))).map
          (fun h => h.line)).getD L.length := by
  subst hL hk he
  refine ⟨?_, findEndLine_eq_find? headings tgt.line tgt.level _⟩
  have hfree_take : ∀ l ∈ (splitLines content).take tgt.line, '\n' ∉ l :=
    fun l hl => no_newline_of_mem_splitLines content l (List.take_subset _ _ hl)
  have hfree_drop : ∀ l ∈ (splitLines content).drop
      (findEndLine headings tgt.line tgt.level (splitLines content).length), '\n' ∉ l :=
    fun l hl => no_newline_of_mem_splitLines content l (List.drop_subset _ _ hl)
  rcases hb with hb | hb
  · rcases ha with ha | ha
    · rw [updateNoteContent_found content headings sectionHeaderText sectionContent tgt
          [] [] hfind (by rw [hb]; exact joinLines_nil.symm)
          (by rw [ha]; exact joinLines_nil.symm), hb, ha]
      simp
    · have hdne : (splitLines content).drop
          (findEndLine headings tgt.line tgt.level (splitLines content).length) ≠ [] :=
        fun hcon => ha (by rw [hcon]; exact joinLines_nil)
      rw [updateNoteContent_found content headings sectionHeaderText sectionContent tgt
          [] _ hfind (by rw [hb]; exact joinLines_nil.symm) rfl, if_neg ha, if_pos rfl, hb]
      simp only [List.nil_append, List.append_assoc, List.singleton_append,
        List.cons_append]
      rw [splitLines_append_join sectionContent _ hdne hfree_drop]
  · have htne : (splitLines content).take tgt.line ≠ [] :=
      fun hcon => hb (by rw [hcon]; exact joinLines_nil)
    rcases ha with ha | ha
    · rw [updateNoteContent_found content headings sectionHeaderText sectionContent tgt
          _ [] hfind rfl (by rw [ha]; exact joinLines_nil.symm), if_neg hb, if_pos rfl, ha]
      simp only [List.append_nil, List.nil_append, List.append_assoc,
        List.singleton_append, List.cons_append]
      rw [splitLines_join_prepend _ htne hfree_take sectionContent]
    · have hdne : (splitLines content).drop
          (findEndLine headings tgt.line tgt.level (splitLines content).length) ≠ [] :=
        fun hcon => ha (by rw [hcon]; exact joinLines_nil)
      rw [updateNoteContent_found content headings sectionHeaderText sectionContent tgt
          _ _ hfind rfl rfl, if_neg hb, if_neg ha]
      simp only [List.append_assoc, List.singleton_append, List.cons_append,
        List.nil_append]
      rw [splitLines_join_prepend _ htne hfree_take,
        splitLines_append_join sectionContent _ hdne hfree_drop]

/-- C1 witness: a document with non-blank content on both sides of the target
section; the replace keeps the prefix line, drops the old body line, inserts
the new body, and keeps everything from the next heading onward. -/
theorem updateNote_replace_frame_witness :
    splitLines (updateNoteContent ("intro\n## Inc\nold\n# Next\nend".data)
        [⟨"Inc".data, 2, 1⟩, ⟨"Next".data, 1, 3⟩] ("Inc".data) ("NEW".data))
      = (splitLines ("intro\n## Inc\nold\n# Next\nend".data)).take 1
          ++ splitLines ("NEW".data)
          ++ (splitLines ("intro\n## Inc\nold\n# Next\nend".data)).drop 3 :=
  (updateNote_replace_frame ("intro\n## Inc\nold\n# Next\nend".data)
    [⟨"Inc".data, 2, 1⟩, ⟨"Next".data, 1, 3⟩] ("Inc".data) ("NEW".data)
    ⟨"Inc".data, 2, 1⟩ (splitLines ("intro\n## Inc\nold\n# Next\nend".data)) 1 3
    (by decide) rfl rfl (by decide) (by decide) (by decide)).1

/-! ## C2: section removal -/

/-- C2 counterexample: `removeSectionFromNote` concatenates `beforeSection`
and `afterSection` without a separating newline, so the last line before the
section ("intro") and the next heading line ("# Next") merge into the single
line "intro# Next" — the result is not the lines outside the owned range. -/
theorem removeSection_counterexample :
    removeSectionFromNote ("intro\n## Inc\nold\n# Next\nend".data)
        [⟨"Inc".data, 2, 1⟩, ⟨"Next".data, 1, 3⟩] ("Inc".data)
      = "intro# Next\nend".data ∧
    removeSectionFromNote ("intro\n## Inc\nold\n# Next\nend".data)
        [⟨"Inc".data, 2, 1⟩, ⟨"Next".data, 1, 3⟩] ("Inc".data)
      ≠ joinLines ((splitLines ("intro\n## Inc\nold\n# Next\nend".data)).take 1
          ++ (splitLines ("intro\n## Inc\nold\n# Next\nend".data)).drop 3) := by
  decide

/-- Unfolding of the found-heading branch of `removeSectionFromNote`. -/
theorem removeSectionFromNote_found (content : JStr) (headings : List HeadingInfo)
    (sectionHeaderText : JStr) (tgt : HeadingInfo)
    (hfind : findSectionHeading headings sectionHeaderText = some tgt) :
    removeSectionFromNote content headings sectionHeaderText
      = jsTrim (collapseNewlines (joinLines ((splitLines content).take tgt.line)
          ++ joinLines ((splitLines content).drop
            (findEndLine headings tgt.line tgt.level (splitLines content).length)))) := by
  simp only [removeSectionFromNote, hfind]

/-- C2 (amended): `removeSectionFromNote` produces the lines outside the owned
range with the two lines adjacent to the deletion point merged into one (the
junction is joined without a separating newline), then every run of three or
more consecutive newline characters collapsed to exactly two, and whitespace
trimmed from both ends; the owned range ends at the first heading after the
target with level at most the target's, or at the end of the document. -/
theorem removeSection_merged_lines
    (content : JStr) (headings : List HeadingInfo) (sectionHeaderText : JStr)
    (tgt : HeadingInfo) (L : List JStr) (k e : Nat)
    (hfind : findSectionHeading headings sectionHeaderText = some tgt)
    (hL : L = splitLines content)
    (hk : k = tgt.line)
    (he : e = findEndLine headings k tgt.level L.length) :
    removeSectionFromNote content headings sectionHeaderText
        = jsTrim (collapseNewlines (joinLines (mergeJunction (L.take k) (L.drop e)))) ∧
      e = ((headings.find? (fun h =>
        decide (k < h.line) && decide (h.level ≤ tgt.level))).map
          (fun h => h.line)).getD L.length := by
  subst hL hk he
  refine ⟨?_, findEndLine_eq_find? headings tgt.line tgt.level _⟩
  rw [removeSectionFromNote_found content headings sectionHeaderText tgt hfind,
    joinLines_mergeJunction]

/-- C2 witness: on a concrete document the removal equals the merged-junction
characterization (and in particular exhibits the merged line). -/
theorem removeSection_merged_lines_witness :
    removeSectionFromNote ("one\n\n## Inc\nbody\n# Next\ntail".data)
        [⟨"Inc".data, 2, 2⟩, ⟨"Next".data, 1, 4⟩] ("Inc".data)
      = jsTrim (collapseNewlines (joinLines (mergeJunction
          ((splitLines ("one\n\n## Inc\nbody\n# Next\ntail".data)).take 2)
          ((splitLines ("one\n\n## Inc\nbody\n# Next\ntail".data)).drop 4)))) :=
  (removeSection_merged_lines ("one\n\n## Inc\nbody\n# Next\ntail".data)
    [⟨"Inc".data, 2, 2⟩, ⟨"Next".data, 1, 4⟩] ("Inc".data) ⟨"Inc".data, 2, 2⟩
    (splitLines ("one\n\n## Inc\nbody\n# Next\ntail".data)) 2 4
    (by decide) rfl rfl (by decide)).1

/-! ## C3: the separators around a replaced section body -/

/-- C3 counterexample: replacing a located section between two non-empty
neighbors separates the new body from them by a single newline, not by a
blank line — the result "intro\nNEW\n# Next" contains no blank line at all,
so no "single separating blank line" is preserved on either side. -/
theorem updateNote_separator_counterexample :
    updateNoteContent ("intro\n## Inc\nold\n# Next".data)
        [⟨"Inc".data, 2, 1⟩, ⟨"Next".data, 1, 3⟩] ("Inc".data) ("NEW".data)
      = "intro\nNEW\n# Next".data ∧
    ([] : JStr) ∉ splitLines (updateNoteContent ("intro\n## Inc\nold\n# Next".data)
        [⟨"Inc".data, 2, 1⟩, ⟨"Next".data, 1, 3⟩] ("Inc".data) ("NEW".data)) := by
  decide

/-- C3 (amended): on a located section, the replace separates the inserted
body from the neighboring content by a single newline character on each side
whenever that side's joined text is non-empty, and suppresses the separator
when that side is empty (so the result gains no stray leading or trailing
newline). -/
theorem updateNote_separator_rule
    (content : JStr) (headings : List HeadingInfo)
    (sectionHeaderText sectionContent : JStr) (tgt : HeadingInfo) (B A : JStr)
    (hfind : findSectionHeading headings sectionHeaderText = some tgt)
    (hB : B = joinLines ((splitLines content).take tgt.line))
    (hA : A = joinLines ((splitLines content).drop
      (findEndLine headings tgt.line tgt.level (splitLines content).length))) :
    (B ≠ [] → A ≠ [] →
      updateNoteContent content headings sectionHeaderText sectionContent
        = B ++ ('\n' :: (sectionContent ++ ('\n' :: A)))) ∧
    (B = [] → A ≠ [] →
      updateNoteContent content headings sectionHeaderText sectionContent
        = sectionContent ++ ('\n' :: A)) ∧
    (B ≠ [] → A = [] →
      updateNoteContent content headings sectionHeaderText sectionContent
        = B ++ ('\n' :: sectionContent)) ∧
    (B = [] → A = [] →
      updateNoteContent content headings sectionHeaderText sectionContent
        = sectionContent) := by
  refine ⟨?_, ?_, ?_, ?_⟩ <;> intro h1 h2 <;>
    rw [updateNoteContent_found content headings sectionHeaderText sectionContent
      tgt B A hfind hB hA] <;>
    simp [h1, h2, List.append_assoc]

/-- C3 witness: both neighbors non-empty, so a single newline appears on each
side of the inserted body. -/
theorem updateNote_separator_rule_witness :
    updateNoteContent ("top\n## Inc\nold\n### Sub\nmore\n# Next".data)
        [⟨"Inc".data, 2, 1⟩, ⟨"Sub".data, 3, 3⟩, ⟨"Next".data, 1, 5⟩]
        ("Inc".data) ("NEW".data)
      = "top".data ++ ('\n' :: ("NEW".data ++ ('\n' :: "# Next".data))) :=
  (updateNote_separator_rule ("top\n## Inc\nold\n### Sub\nmore\n# Next".data)
    [⟨"Inc".data, 2, 1⟩, ⟨"Sub".data, 3, 3⟩, ⟨"Next".data, 1, 5⟩]
    ("Inc".data) ("NEW".data) ⟨"Inc".data, 2, 1⟩
    ("top".data) ("# Next".data) (by decide) (by decide) (by decide)).1
    (by decide) (by decide)

/-! ## C7: the exponential backoff schedule -/

/-- C7: with no retry-after hint, the pre-jitter backoff (jitter injected as
the identity) is `min(500 · 2^attempt, 30000)` for every attempt number, and
in particular 30000 at attempts 6 and 10. -/
theorem calculateBackoff_no_hint_schedule :
    (∀ attempt : Nat,
      calculateBackoff attempt none id = min (500 * 2 ^ attempt) 30000) ∧
    calculateBackoff 6 none id = 30000 ∧
    calculateBackoff 10 none id = 30000 := by
  refine ⟨fun attempt => ?_, by decide, by decide⟩
  simp [calculateBackoff, INITIAL_BACKOFF_MS, MAX_BACKOFF_MS]

/-! ## C6: the retry-after hint rule -/

/-- C6 counterexample: the hint "-5" does not parse as a non-negative integer,
yet `calculateBackoff` does not fall back to the exponential schedule (500 at
attempt 0) — `parseInt` accepts the negative value and the pre-jitter base
becomes -5000. -/
theorem backoff_negative_hint_counterexample :
    calculateBackoff 0 (some "-5") id = -5000 ∧
    calculateBackoff 0 (some "-5") id ≠ min (500 * 2 ^ 0) 30000 := by
  decide

/-- C6 (amended): a non-empty hint on which JS `parseInt(·, 10)` yields an
integer h — non-negative or not — makes the pre-jitter base h×1000
independently of the attempt number; an absent or empty hint, or one on which
`parseInt` yields NaN, falls back to the exponential schedule for that
attempt. -/
theorem calculateBackoff_hint_rule :
    (∀ (attempt : Nat) (h : String) (n : Int),
      h ≠ "" → jsParseInt h = some n →
        calculateBackoff attempt (some h) id = n * 1000) ∧
    (∀ (attempt : Nat) (h : String),
      h = "" ∨ jsParseInt h = none →
        calculateBackoff attempt (some h) id = min (500 * 2 ^ attempt) 30000) := by
  constructor
  · intro attempt h n hne hparse
    simp [calculateBackoff, hne, hparse]
  · intro attempt h hcase
    rcases hcase with rfl | hparse
    · simp [calculateBackoff, INITIAL_BACKOFF_MS, MAX_BACKOFF_MS]
    · by_cases hne : h = ""
      · simp [calculateBackoff, hne, INITIAL_BACKOFF_MS, MAX_BACKOFF_MS]
      · simp [calculateBackoff, hne, hparse, INITIAL_BACKOFF_MS, MAX_BACKOFF_MS]

/-- C6 witness: the hint "7" gives 7000 regardless of the attempt number, and
the unparsable hint "nope" falls back to the exponential value for attempt
2. -/
theorem calculateBackoff_hint_rule_witness :
    calculateBackoff 3 (some "7") id = 7 * 1000 ∧
    calculateBackoff 2 (some "nope") id = min (500 * 2 ^ 2) 30000 :=
  ⟨calculateBackoff_hint_rule.1 3 "7" 7 (by decide) (by decide),
   calculateBackoff_hint_rule.2 2 "nope" (Or.inr (by decide))⟩

/-! ## C5: the request retry decision -/

/-- Reaching a non-retryable, non-2xx status after `k` retryable attempts
makes the loop fail at attempt `attempt + k` with that status. -/
theorem runRequest_immediate_fail (outcomes : Nat → AttemptOutcome) :
    ∀ (k fuel attempt : Nat) (lastError : Option String) (status : Nat)
      (ra : Option String),
      k < fuel →
      (∀ i, i < k → retryableOutcome (outcomes (attempt + i)) = true) →
      outcomes (attempt + k) = .response status ra →
      ¬ (200 ≤ status ∧ status < 300) → status ≠ 429 → ¬ 500 ≤ status →
      runRequest outcomes fuel attempt lastError
        = .statusFailure status (attempt + k) := by
  intro k
  induction k with
  | zero =>
    intro fuel attempt lastError status ra hkf _ hout h2xx h429 h5xx
    cases fuel with
    | zero => omega
    | succ f =>
      rw [Nat.add_zero] at hout
      simp only [runRequest, hout, if_neg h2xx, if_neg h429, if_neg h5xx,
        Nat.add_zero]
  | succ k ih =>
    intro fuel attempt lastError status ra hkf hretry hout h2xx h429 h5xx
    cases fuel with
    | zero => omega
    | succ f =>
      have h0 : retryableOutcome (outcomes attempt) = true := by
        have := hretry 0 (Nat.succ_pos k)
        rwa [Nat.add_zero] at this
      have hshift : ∀ i, i < k → retryableOutcome (outcomes (attempt + 1 + i)) = true := by
        intro i hi
        have := hretry (i + 1) (by omega)
        rwa [show attempt + (i + 1) = attempt + 1 + i by omega] at this
      have hout' : outcomes (attempt + 1 + k) = .response status ra := by
        rwa [show attempt + (k + 1) = attempt + 1 + k by omega] at hout
      rcases ho : outcomes attempt with ⟨s, ra'⟩ | msg
      · rw [ho] at h0
        simp only [retryableOutcome, Bool.or_eq_true, beq_iff_eq,
          decide_eq_true_eq] at h0
        have hstep : runRequest outcomes (f + 1) attempt lastError
            = runRequest outcomes f (attempt + 1) lastError := by
          simp only [runRequest, ho]
          rcases h0 with rfl | h5
          · rw [if_neg (by omega : ¬ (200 ≤ 429 ∧ 429 < 300)), if_pos rfl]
          · rw [if_neg (by omega : ¬ (200 ≤ s ∧ s < 300)),
              if_neg (by omega : ¬ s = 429), if_pos h5]
        rw [hstep, ih f (attempt + 1) lastError status ra (by omega) hshift hout'
          h2xx h429 h5xx]
        congr 1
        omega
      · have hstep : runRequest outcomes (f + 1) attempt lastError
            = runRequest outcomes f (attempt + 1) (some msg) := by
          simp only [runRequest, ho]
        rw [hstep, ih f (attempt + 1) (some msg) status ra (by omega) hshift hout'
          h2xx h429 h5xx]
        congr 1
        omega

/-- If every attempt the loop can reach is retryable, the loop exhausts its
fuel and reports the most recent transport error accumulated on the way. -/
theorem runRequest_exhausted (outcomes : Nat → AttemptOutcome) :
    ∀ (fuel attempt : Nat) (lastError : Option String),
      (∀ i, i < fuel → retryableOutcome (outcomes (attempt + i)) = true) →
      runRequest outcomes fuel attempt lastError
        = .exhausted (lastTransportFrom outcomes fuel attempt lastError) := by
  intro fuel
  induction fuel with
  | zero => intro attempt lastError _; rfl
  | succ f ih =>
    intro attempt lastError hretry
    have h0 : retryableOutcome (outcomes attempt) = true := by
      have := hretry 0 (Nat.succ_pos f)
      rwa [Nat.add_zero] at this
    have hshift : ∀ i, i < f → retryableOutcome (outcomes (attempt + 1 + i)) = true := by
      intro i hi
      have := hretry (i + 1) (by omega)
      rwa [show attempt + (i + 1) = attempt + 1 + i by omega] at this
    rcases ho : outcomes attempt with ⟨s, ra'⟩ | msg
    · rw [ho] at h0
      simp only [retryableOutcome, Bool.or_eq_true, beq_iff_eq,
        decide_eq_true_eq] at h0
      have hlt : lastTransportFrom outcomes (f + 1) attempt lastError
          = lastTransportFrom outcomes f (attempt + 1) lastError := by
        simp only [lastTransportFrom, ho]
      have hstep : runRequest outcomes (f + 1) attempt lastError
          = runRequest outcomes f (attempt + 1) lastError := by
        simp only [runRequest, ho]
        rcases h0 with rfl | h5
        · rw [if_neg (by omega : ¬ (200 ≤ 429 ∧ 429 < 300)), if_pos rfl]
        · rw [if_neg (by omega : ¬ (200 ≤ s ∧ s < 300)),
            if_neg (by omega : ¬ s = 429), if_pos h5]
      rw [hstep, ih (attempt + 1) lastError hshift, hlt]
    · have hlt : lastTransportFrom outcomes (f + 1) attempt lastError
          = lastTransportFrom outcomes f (attempt + 1) (some msg) := by
        simp only [lastTransportFrom, ho]
      simp only [runRequest, ho]
      rw [ih (attempt + 1) (some msg) hshift, hlt]

/-- Any success or immediate status failure happens strictly within the
fuel-bounded attempt window. -/
theorem runRequest_attempt_bound (outcomes : Nat → AttemptOutcome) :
    ∀ (fuel attempt : Nat) (lastError : Option String),
      (∀ a, runRequest outcomes fuel attempt lastError = .success a →
        a < attempt + fuel) ∧
      (∀ s a, runRequest outcomes fuel attempt lastError = .statusFailure s a →
        a < attempt + fuel) := by
  intro fuel
  induction fuel with
  | zero =>
    intro attempt lastError
    constructor
    · intro a h
      simp [runRequest] at h
    · intro s a h
      simp [runRequest] at h
  | succ f ih =>
    intro attempt lastError
    rcases ho : outcomes attempt with ⟨s', ra'⟩ | msg
    · by_cases h2 : 200 ≤ s' ∧ s' < 300
      · constructor
        · intro a h
          simp only [runRequest, ho, if_pos h2, RequestResult.success.injEq] at h
          omega
        · intro s a h
          simp only [runRequest, ho, if_pos h2] at h
          exact RequestResult.noConfusion h
      · by_cases h429 : s' = 429
        · constructor
          · intro a h
            simp only [runRequest, ho, if_neg h2, if_pos h429] at h
            have := (ih (attempt + 1) lastError).1 a h
            omega
          · intro s a h
            simp only [runRequest, ho, if_neg h2, if_pos h429] at h
            have := (ih (attempt + 1) lastError).2 s a h
            omega
        · by_cases h5 : 500 ≤ s'
          · constructor
            · intro a h
              simp only [runRequest, ho, if_neg h2, if_neg h429, if_pos h5] at h
              have := (ih (attempt + 1) lastError).1 a h
              omega
            · intro s a h
              simp only [runRequest, ho, if_neg h2, if_neg h429, if_pos h5] at h
              have := (ih (attempt + 1) lastError).2 s a h
              omega
          · constructor
            · intro a h
              simp only [runRequest, ho, if_neg h2, if_neg h429, if_neg h5] at h
              exact RequestResult.noConfusion h
            · intro s a h
              simp only [runRequest, ho, if_neg h2, if_neg h429, if_neg h5,
                RequestResult.statusFailure.injEq] at h
              omega
    · constructor
      · intro a h
        simp only [runRequest, ho] at h
        have := (ih (attempt + 1) (some msg)).1 a h
        omega
      · intro s a h
        simp only [runRequest, ho] at h
        have := (ih (attempt + 1) (some msg)).2 s a h
        omega

/-- C5: a 4xx status other than 429 reached after any run of retryable
attempts fails the request immediately at that attempt; if all `MAX_RETRIES`
attempts are retryable (429, 5xx or transport errors), the request fails as
exhausted carrying the last transport error seen, if any; and no request ever
uses more than `MAX_RETRIES` attempts. -/
theorem request_retry_decision :
    (∀ (outcomes : Nat → AttemptOutcome) (k status : Nat) (ra : Option String),
      k < MAX_RETRIES →
      (∀ i, i < k → retryableOutcome (outcomes i) = true) →
      outcomes k = .response status ra →
      400 ≤ status → status < 500 → status ≠ 429 →
      request outcomes = .statusFailure status k) ∧
    (∀ outcomes : Nat → AttemptOutcome,
      (∀ i, i < MAX_RETRIES → retryableOutcome (outcomes i) = true) →
      request outcomes = .exhausted (lastTransportFrom outcomes MAX_RETRIES 0 none)) ∧
    (∀ outcomes : Nat → AttemptOutcome,
      attemptsUsed (request outcomes) ≤ MAX_RETRIES) := by
  refine ⟨?_, ?_, ?_⟩
  · intro outcomes k status ra hk hretry hout h400 h500 h429
    have := runRequest_immediate_fail outcomes k MAX_RETRIES 0 none status ra hk
      (by intro i hi; simpa using hretry i hi) (by simpa using hout)
      (by omega) h429 (by omega)
    simpa [request] using this
  · intro outcomes hretry
    exact runRequest_exhausted outcomes MAX_RETRIES 0 none
      (by intro i hi; simpa using hretry i hi)
  · intro outcomes
    rcases hr : request outcomes with a | ⟨s, a⟩ | le
    · have := (runRequest_attempt_bound outcomes MAX_RETRIES 0 none).1 a hr
      simp only [attemptsUsed]
      omega
    · have := (runRequest_attempt_bound outcomes MAX_RETRIES 0 none).2 s a hr
      simp only [attemptsUsed]
      omega
    · simp [attemptsUsed]

/-- C5 witness: a transport error then a 403 fails immediately at attempt 1
with no retry; five retryable outcomes exhaust the request carrying the last
transport error. -/
theorem request_retry_decision_witness :
    request (fun i => if i = 0 then .transportError "t0" else .response 403 none)
        = .statusFailure 403 1 ∧
    request (fun i => if i = 2 then .transportError "boom" else .response 503 none)
        = .exhausted (lastTransportFrom
            (fun i => if i = 2 then .transportError "boom" else .response 503 none)
            MAX_RETRIES 0 none) :=
  ⟨request_retry_decision.1
      (fun i => if i = 0 then .transportError "t0" else .response 403 none)
      1 403 none (by decide)
      (fun i hi => by interval_cases i; decide) (by decide)
      (by decide) (by decide) (by decide),
    request_retry_decision.2.1
      (fun i => if i = 2 then .transportError "boom" else .response 503 none)
      (fun i hi => by
        have hi5 : i < 5 := hi
        interval_cases i <;> decide)⟩

/-! ## C8: the date-window filter -/

/-- C8: an incident is selected for a target day exactly when its creation
instant is at or before the day's end (`dayStart + 86399999`, i.e.
23:59:59.999) and it either has no close instant or closed at or after the
day's start; in particular closing exactly at 00:00:00.000 of the day keeps
it selected, as does being created exactly at 23:59:59.000 of the day. -/
theorem filterIncidentsForDate_window :
    (∀ (incidents : List FullIncidentM) (dayStart : Int) (inc : FullIncidentM),
      inc ∈ filterIncidentsForDate incidents dayStart ↔
        inc ∈ incidents ∧ inc.created_at ≤ dayStart + 86399999 ∧
          (inc.closed_at = none ∨ ∃ c, inc.closed_at = some c ∧ dayStart ≤ c)) ∧
    (∀ (incidents : List FullIncidentM) (dayStart : Int) (inc : FullIncidentM),
      inc ∈ incidents → inc.closed_at = some dayStart →
      inc.created_at ≤ dayStart + 86399999 →
      inc ∈ filterIncidentsForDate incidents dayStart) ∧
    (∀ (incidents : List FullIncidentM) (dayStart : Int) (inc : FullIncidentM),
      inc ∈ incidents → inc.created_at = dayStart + 86399000 →
      (inc.closed_at = none ∨ ∃ c, inc.closed_at = some c ∧ dayStart ≤ c) →
      inc ∈ filterIncidentsForDate incidents dayStart) := by
  have main : ∀ (incidents : List FullIncidentM) (dayStart : Int) (inc : FullIncidentM),
      inc ∈ filterIncidentsForDate incidents dayStart ↔
        inc ∈ incidents ∧ inc.created_at ≤ dayStart + 86399999 ∧
          (inc.closed_at = none ∨ ∃ c, inc.closed_at = some c ∧ dayStart ≤ c) := by
    intro incidents dayStart inc
    simp only [filterIncidentsForDate, List.mem_filter, Bool.and_eq_true,
      decide_eq_true_eq]
    constructor
    · rintro ⟨hmem, hcreated, hclosed⟩
      refine ⟨hmem, hcreated, ?_⟩
      rcases hc : inc.closed_at with _ | c
      · exact Or.inl rfl
      · rw [hc] at hclosed
        simp only [decide_eq_true_eq] at hclosed
        exact Or.inr ⟨c, rfl, hclosed⟩
    · rintro ⟨hmem, hcreated, hclosed⟩
      refine ⟨hmem, hcreated, ?_⟩
      rcases hclosed with hnone | ⟨c, hc, hge⟩
      · rw [hnone]
      · rw [hc]
        simpa using hge
  refine ⟨main, ?_, ?_⟩
  · intro incidents dayStart inc hmem hclosed hcreated
    exact (main incidents dayStart inc).mpr
      ⟨hmem, hcreated, Or.inr ⟨dayStart, hclosed, le_refl dayStart⟩⟩
  · intro incidents dayStart inc hmem hcreated hclosed
    exact (main incidents dayStart inc).mpr ⟨hmem, by omega, hclosed⟩

/-- C8 witness: an incident closed exactly at the day's start instant and an
open incident created exactly at 23:59:59.000 of the day are both selected. -/
theorem filterIncidentsForDate_window_witness :
    mkIncidentM 0 (some 1000000) ∈
      filterIncidentsForDate [mkIncidentM 0 (some 1000000),
        mkIncidentM 87399000 none] 1000000 ∧
    mkIncidentM 87399000 none ∈
      filterIncidentsForDate [mkIncidentM 0 (some 1000000),
        mkIncidentM 87399000 none] 1000000 :=
  ⟨filterIncidentsForDate_window.2.1 _ 1000000 (mkIncidentM 0 (some 1000000))
      (by decide) (by decide) (by decide),
    filterIncidentsForDate_window.2.2 _ 1000000 (mkIncidentM 87399000 none)
      (by decide) (by decide) (Or.inl (by decide))⟩

/-! ## C9: duration is present iff a close time is known -/

/-- With a close time on the raw incident, the aggregated record keeps it and
the duration computed by `buildBasicFullIncident`. -/
theorem getFullIncidentDetails_closed (env : ApiEnv) (incident : RawIncident)
    (userId : String) (c : Int) (hclosed : incident.closed_at = some c) :
    (getFullIncidentDetails env incident userId).closed_at = some c ∧
    (getFullIncidentDetails env incident userId).durationMinutes
      = some (jsRoundDivMinutes (c - incident.created_at)) := by
  constructor <;> simp [getFullIncidentDetails, buildBasicFullIncident, hclosed]

/-- Back-filling: with no raw close time, a "closed" status category, and a
first update whose new status category is "closed", that update's timestamp is
adopted and the duration recomputed from it. -/
theorem getFullIncidentDetails_backfill (env : ApiEnv) (incident : RawIncident)
    (userId : String) (u : UpdateRec)
    (hclosed : incident.closed_at = none)
    (hstat : jsOrStr incident.statusCategory "closed" = "closed")
    (hfind : (getIncidentUpdates env incident.id).find?
      (fun v => v.newStatusCategory == some "closed") = some u) :
    (getFullIncidentDetails env incident userId).closed_at = some u.created_at ∧
    (getFullIncidentDetails env incident userId).durationMinutes
      = some (jsRoundDivMinutes (u.created_at - incident.created_at)) := by
  constructor <;>
    simp [getFullIncidentDetails, buildBasicFullIncident, hclosed, hstat, hfind]

/-- With no raw close time and a status category other than "closed", no
duration is produced. -/
theorem getFullIncidentDetails_open_status (env : ApiEnv) (incident : RawIncident)
    (userId : String)
    (hclosed : incident.closed_at = none)
    (hstat : ¬ jsOrStr incident.statusCategory "closed" = "closed") :
    (getFullIncidentDetails env incident userId).durationMinutes = none := by
  simp [getFullIncidentDetails, buildBasicFullIncident, hclosed, hstat]

/-- With no raw close time and no update closing the incident, no duration is
produced. -/
theorem getFullIncidentDetails_no_closing_update (env : ApiEnv)
    (incident : RawIncident) (userId : String)
    (hclosed : incident.closed_at = none)
    (hfind : (getIncidentUpdates env incident.id).find?
      (fun v => v.newStatusCategory == some "closed") = none) :
    (getFullIncidentDetails env incident userId).durationMinutes = none := by
  by_cases hstat : jsOrStr incident.statusCategory "closed" = "closed"
  · simp [getFullIncidentDetails, buildBasicFullIncident, hclosed, hstat, hfind]
  · exact getFullIncidentDetails_open_status env incident userId hclosed hstat

/-- C9: the aggregated record carries a duration exactly when a close time is
known — either `closed_at` was present on the raw incident, or the status
category is "closed" and some fetched update's new status category is
"closed"; in the latter case the first such update's timestamp becomes
`closed_at` and the duration is recomputed from it. -/
theorem fullIncident_duration_iff_close
    (env : ApiEnv) (incident : RawIncident) (userId : String) :
    ((getFullIncidentDetails env incident userId).durationMinutes.isSome = true ↔
      (incident.closed_at.isSome = true ∨
        (jsOrStr incident.statusCategory "closed" = "closed" ∧
          ∃ u ∈ getIncidentUpdates env incident.id,
            u.newStatusCategory = some "closed"))) ∧
    (∀ u : UpdateRec,
      incident.closed_at = none →
      jsOrStr incident.statusCategory "closed" = "closed" →
      (getIncidentUpdates env incident.id).find?
          (fun v => v.newStatusCategory == some "closed") = some u →
      (getFullIncidentDetails env incident userId).closed_at = some u.created_at ∧
      (getFullIncidentDetails env incident userId).durationMinutes
        = some (jsRoundDivMinutes (u.created_at - incident.created_at))) := by
  constructor
  · constructor
    · intro hdur
      rcases hclosed : incident.closed_at with _ | c
      · right
        by_cases hstat : jsOrStr incident.statusCategory "closed" = "closed"
        · refine ⟨hstat, ?_⟩
          rcases hfind : (getIncidentUpdates env incident.id).find?
              (fun v => v.newStatusCategory == some "closed") with _ | u
          · rw [getFullIncidentDetails_no_closing_update env incident userId
              hclosed hfind] at hdur
            simp at hdur
          · refine ⟨u, List.mem_of_find?_eq_some hfind, ?_⟩
            have := List.find?_some hfind
            simpa using this
        · rw [getFullIncidentDetails_open_status env incident userId
            hclosed hstat] at hdur
          simp at hdur
      · left
        rfl
    · intro hknown
      rcases hclosed : incident.closed_at with _ | c
      · rcases hknown with hsome | ⟨hstat, u, hu, hcat⟩
        · rw [hclosed] at hsome
          simp at hsome
        · have hiss : ((getIncidentUpdates env incident.id).find?
              (fun v => v.newStatusCategory == some "closed")).isSome = true := by
            rw [List.find?_isSome]
            exact ⟨u, hu, by simpa using hcat⟩
          rcases hfind : (getIncidentUpdates env incident.id).find?
              (fun v => v.newStatusCategory == some "closed") with _ | v
          · rw [hfind] at hiss
            simp at hiss
          · rw [(getFullIncidentDetails_backfill env incident userId v hclosed
              hstat hfind).2]
            rfl
      · rw [(getFullIncidentDetails_closed env incident userId c hclosed).2]
        rfl
  · intro u hclosed hstat hfind
    exact getFullIncidentDetails_backfill env incident userId u hclosed hstat hfind

/-- C9 witness: a closed-category incident without `closed_at` adopts the
closing update's timestamp (instant 120000) and the recomputed 2-minute
duration. -/
theorem fullIncident_duration_iff_close_witness :
    (getFullIncidentDetails envBackfill rawClosedIncident "u1").closed_at
        = some 120000 ∧
    (getFullIncidentDetails envBackfill rawClosedIncident "u1").durationMinutes
        = some 2 :=
  (fullIncident_duration_iff_close envBackfill rawClosedIncident "u1").2
    ⟨"up1", 120000, none, some "closed"⟩ rfl (by decide) (by decide)

/-! ## C10: batch processing is an order-preserving successful projection -/

/-- The batched loop with a positive batch size computes exactly
`filterMap`. -/
theorem processInBatches_filterMap (batchSize : Nat) (hbs : 0 < batchSize)
    {α β : Type} (processor : α → Option β) (items : List α) :
    processInBatches batchSize processor items = items.filterMap processor := by
  generalize hn : items.length = n
  induction n using Nat.strong_induction_on generalizing items with
  | _ n ih =>
    cases items with
    | nil => simp [processInBatches]
    | cons x xs =>
      rw [processInBatches]
      rw [max_eq_left hbs]
      have hlen : ((x :: xs).drop batchSize).length < n := by
        rw [← hn]
        simp only [List.length_drop, List.length_cons]
        omega
      rw [ih ((x :: xs).drop batchSize).length hlen ((x :: xs).drop batchSize) rfl,
        ← List.filterMap_append, List.take_append_drop]

/-- C10: for every input list and every pattern of per-item success (`some`)
or failure (`none`), `processInBatches` with a positive batch size returns
exactly the successful results in input order — a failed item is silently
omitted and drops nothing else; consequently, whenever `syncData` succeeds its
`fullIncidents` list is the per-candidate aggregation of the candidate
incident list in candidate order. -/
theorem processInBatches_successful_projection :
    (∀ (α β : Type) (batchSize : Nat) (processor : α → Option β) (items : List α),
      0 < batchSize →
      processInBatches batchSize processor items = items.filterMap processor) ∧
    (∀ (env : ApiEnv) (userIdentifier : String) (historical : Bool)
        (users : List IOUser) (user : IOUser) (incidents : List RawIncident),
      env.usersResp = .ok users →
      users.find? (fun u => matchesUser u userIdentifier) = some user →
      (if historical then getUserIncidentsWithHistory env user.id
        else getUserIncidents env user.id) = .ok incidents →
      ∀ result, syncData env userIdentifier historical = .ok result →
        result.fullIncidents
          = incidents.map (fun inc => getFullIncidentDetails env inc user.id)) := by
  constructor
  · intro α β batchSize processor items hbs
    exact processInBatches_filterMap batchSize hbs processor items
  · intro env userIdentifier historical users user incidents hu hfind hinc result hok
    rcases hoc : getOnCallSchedules env user.email with e | onCall
    · rw [syncData, findUser, hu] at hok
      simp only [hfind] at hok
      rw [hoc, hinc] at hok
      cases hok
    · rw [syncData, findUser, hu] at hok
      simp only [hfind] at hok
      rw [hoc, hinc] at hok
      have hfull := congrArg SyncResultM.fullIncidents (Except.ok.inj hok).symm
      simp only at hfull
      rw [hfull,
        processInBatches_filterMap 5 (by omega)
          (fun inc => some (getFullIncidentDetails env inc user.id)) incidents]
      rw [show (fun inc => some (getFullIncidentDetails env inc user.id))
          = some ∘ (fun inc => getFullIncidentDetails env inc user.id) from rfl,
        List.filterMap_eq_map]

/-- C10 witness: a batch size of 5 over seven items where the odd ones fail
yields exactly the even results in order. -/
theorem processInBatches_successful_projection_witness :
    processInBatches 5 (fun n => if n % 2 = 0 then some (n * 10) else none)
        [1, 2, 3, 4, 5, 6, 7]
      = List.filterMap (fun n => if n % 2 = 0 then some (n * 10) else none)
          [1, 2, 3, 4, 5, 6, 7] :=
  processInBatches_successful_projection.1 Nat Nat 5
    (fun n => if n % 2 = 0 then some (n * 10) else none)
    [1, 2, 3, 4, 5, 6, 7] (by decide)

/-! ## C4: when syncData fails -/

/-- C4 counterexample: a user matching "james" exists and is found, yet
`syncData` fails, because the top-level /schedules list request fails and
`getOnCallSchedules` propagates that failure — so "fails only if no user
matches" is not true of the code. -/
theorem syncData_failure_counterexample :
    envSchedulesFail.usersResp = .ok [matchedUser] ∧
    matchesUser matchedUser "james" = true ∧
    syncData envSchedulesFail "james" false = .error .requestFailed := by
  refine ⟨rfl, by decide, ?_⟩
  rfl

/-- C4 (amended): provided the top-level /users, /schedules and incident-list
requests succeed, `syncData` succeeds iff some user's email or name contains
the identifier case-insensitively, and when no user matches the failure is
precisely the user-not-found error.  (Per-schedule entry failures and
per-incident sub-resource failures are caught inside `getOnCallSchedules` and
`getFullIncidentDetails` and degrade to empty results; but a failure of one of
the three top-level list requests fails the whole sync, as the counterexample
shows.) -/
theorem syncData_fails_iff_no_user
    (env : ApiEnv) (users : List IOUser) (schedules : List ScheduleRec)
    (incidents : List RawIncident) (userIdentifier : String) (historical : Bool)
    (hu : env.usersResp = .ok users)
    (hs : env.schedulesResp = .ok schedules)
    (hi : env.incidentsResp = .ok incidents) :
    (exceptIsOk (syncData env userIdentifier historical) = true ↔
      users.any (fun u => matchesUser u userIdentifier) = true) ∧
    (users.any (fun u => matchesUser u userIdentifier) = false →
      syncData env userIdentifier historical = .error .userNotFound) := by
  have hfetch : ∀ uid, ∃ incs,
      (if historical then getUserIncidentsWithHistory env uid
        else getUserIncidents env uid) = .ok incs := by
    intro uid
    cases historical with
    | true =>
      exact ⟨incidents.filter (fun inc =>
          inc.roleAssignments.any fun role => role.assigneeId == uid),
        by rw [if_pos rfl, getUserIncidentsWithHistory, hi]⟩
    | false =>
      exact ⟨(incidents.filter (fun inc =>
            inc.statusCategory == "live" || inc.statusCategory == "triage")).filter
          (fun inc => inc.roleAssignments.any fun role =>
            role.assigneeId == uid && role.roleType == "lead"),
        by rw [if_neg (by decide), getUserIncidents, getActiveIncidents, hi]⟩
  rcases hfind : users.find? (fun u => matchesUser u userIdentifier) with _ | user
  · have hnone : users.any (fun u => matchesUser u userIdentifier) = false := by
      by_contra hcon
      rw [Bool.not_eq_false, List.any_eq_true] at hcon
      obtain ⟨u, humem, hp⟩ := hcon
      have hiss : (users.find? (fun u => matchesUser u userIdentifier)).isSome = true :=
        List.find?_isSome.mpr ⟨u, humem, hp⟩
      rw [hfind] at hiss
      simp at hiss
    have hsync : syncData env userIdentifier historical = .error .userNotFound := by
      rw [syncData, findUser, hu]
      simp only [hfind]
    refine ⟨?_, fun _ => hsync⟩
    rw [hsync, hnone]
    simp [exceptIsOk]
  · have hany : users.any (fun u => matchesUser u userIdentifier) = true := by
      rw [List.any_eq_true]
      refine ⟨user, List.mem_of_find?_eq_some hfind, ?_⟩
      have := List.find?_some hfind
      simpa using this
    rcases hoc : getOnCallSchedules env user.email with e | onCall
    · rw [getOnCallSchedules, hs] at hoc
      cases hoc
    · obtain ⟨incs, hfetch'⟩ := hfetch user.id
      have hsync : syncData env userIdentifier historical = .ok
          { onCall := if 0 < onCall.schedules.length then some onCall else none
            incidents := incs.map (fun incident =>
              { reference := incident.reference
                name := incident.name
                status := incident.statusName })
            fullIncidents := processInBatches 5
              (fun incident => some (getFullIncidentDetails env incident user.id))
              incs } := by
        rw [syncData, findUser, hu]
        simp only [hfind]
        rw [hoc, hfetch']
      refine ⟨?_, ?_⟩
      · rw [hsync, hany]
        simp [exceptIsOk]
      · intro hfalse
        rw [hany] at hfalse
        cases hfalse

/-- C4 witness: with every top-level request succeeding, the identifier
"james" (matching a user) syncs successfully even though the per-schedule
entries request fails, and the identifier "zzz" (matching nobody) fails with
the user-not-found error. -/
theorem syncData_fails_iff_no_user_witness :
    exceptIsOk (syncData envAllOk "james" false) = true ∧
    syncData envAllOk "zzz" false = .error .userNotFound :=
  ⟨(syncData_fails_iff_no_user envAllOk [matchedUser] [⟨"s1", "Primary"⟩] []
      "james" false rfl rfl rfl).1.mpr (by decide),
   (syncData_fails_iff_no_user envAllOk [matchedUser] [⟨"s1", "Primary"⟩] []
      "zzz" false rfl rfl rfl).2 (by decide)⟩
